import Mathlib

/-!
# Verification of the poker table engine (`game_logic.py`, `api/games.py`, `models.py`)

Shallow embedding of the repository's game logic in Lean 4, together with
theorems settling the specification's claims about it.

Conventions of the embedding:
* Python dict rows from the `seats` table become the `Player` structure;
  chip counts are `Int` (Python ints can go negative under subtraction).
* Python exceptions that escape a function are modelled by `Option`/`Except`
  results (`none` = the call raises).
* Database `update ... eq("id", x)` calls are modelled as pure list updates;
  the in-memory Python dicts are *not* mutated by such calls, which the
  embedding reproduces by always reading fields from the original list.
* `random.choice` / `random.shuffle` are modelled by passing the random
  draw explicitly as a parameter.
-/

/-- A row of the `seats` table as `start_game` selects it
(`id, user_id, seat_number, status, chip_count`). -/
structure Player where
  id : Nat
  user_id : Nat
  seat_number : Int
  chip_count : Int
  status : String
  deriving DecidableEq, Repr

/-- `SUITS = ["H", "D", "C", "S"]` from `game_logic.py`. -/
def SUITS : List String := ["H", "D", "C", "S"]

/-- `RANKS = ["2", ..., "A"]` from `game_logic.py`. -/
def RANKS : List String :=
  ["2", "3", "4", "5", "6", "7", "8", "9", "T", "J", "Q", "K", "A"]

/-- `create_deck` from `game_logic.py`:
`[rank + suit for suit in SUITS for rank in RANKS]`. -/
def create_deck : List String :=
  SUITS.flatMap (fun suit => RANKS.map (fun rank => rank ++ suit))

/-- Modelled from the spec: `shuffle()` produces a permutation of the deck
by repeatedly selecting a remaining card at a random index (any unbiased
shuffle algorithm, e.g. Fisher-Yates).  The source's `shuffle_deck` merely
calls the Python standard library's `random.shuffle`, whose body is not part
of this repository, so the shuffle itself is modelled here with the random
index draws passed in explicitly as `rand`. -/
def shuffle_deck (rand : List Nat) (deck : List String) : List String :=
  match rand with
  | [] => deck
  | j :: js =>
    match deck with
    | [] => []
    | d :: ds =>
      let i := j % (d :: ds).length
      (d :: ds).getD i "" :: shuffle_deck js ((d :: ds).eraseIdx i)

/-- The eligible players of `get_player_positions`:
`sorted([p for p in players if p.get('status') == 'playing'], key=...seat_number)`.
Python's `sorted` is a stable sort by the key; stable insertion sort on the
seat-number order is extensionally identical to it. -/
def eligiblePlayers (players : List Player) : List Player :=
  List.insertionSort (fun a b => a.seat_number ≤ b.seat_number)
    (players.filter (fun p => p.status = "playing"))

/-- `player_seats = [p['seat_number'] for p in active_players]`. -/
def playerSeats (players : List Player) : List Int :=
  (eligiblePlayers players).map (·.seat_number)

/-- `get_player_positions` from `game_logic.py`.  Returns
`(small_blind, big_blind, under_the_gun)` seat numbers.  The
`try/except ValueError` around `player_seats.index(dealer_seat)` becomes the
membership test; the `ZeroDivisionError` raised by `% 0` when no seat is
eligible becomes `none`. -/
def get_player_positions (players : List Player) (dealer_seat : Int) :
    Option (Int × Int × Int) :=
  let seats := playerSeats players
  let n := seats.length
  let dealer_index := if dealer_seat ∈ seats then seats.indexOf dealer_seat else 0
  if n = 2 then
    let sb_seat := seats.getD dealer_index 0
    let bb_seat := seats.getD ((dealer_index + 1) % n) 0
    some (sb_seat, bb_seat, sb_seat)
  else if n = 0 then
    none
  else
    let sb_seat := seats.getD ((dealer_index + 1) % n) 0
    let bb_seat := seats.getD ((dealer_index + 2) % n) 0
    let utg_seat := seats.getD ((dealer_index + 3) % n) 0
    some (sb_seat, bb_seat, utg_seat)

/-- The `dealer_index` computed by `get_player_positions`: the position of
the dealer in the sorted eligible list, or 0 (`except ValueError`) when the
dealer seat is not eligible. -/
def dealerIndex (players : List Player) (dealer_seat : Int) : Nat :=
  if dealer_seat ∈ playerSeats players
  then (playerSeats players).indexOf dealer_seat else 0

/-- The fields of `models.GameSettings` (the `settings` JSONB object)
read by the endpoints under verification. -/
structure GameSettings where
  buy_in : Int
  small_blind : Int
  big_blind : Int
  max_players : Nat
  deriving DecidableEq, Repr

/-- `db.table("seats").update({"chip_count": c}).eq("id", rowId)`: set the
chip count of every row whose `id` equals `rowId`.  The Python `players`
list itself is never mutated by these calls; the embedding reproduces that
by always reading fields from the original list. -/
def updateChips (seats : List Player) (rowId : Nat) (newChips : Int) : List Player :=
  seats.map (fun p => if p.id = rowId then { p with chip_count := newChips } else p)

/-- Specification-side description of posting the blinds: the small-blind
seat pays `sb`, the big-blind seat pays `bb`, every other seat is untouched.
The theorems below show that the two sequential `updateChips` calls of
`start_new_hand` agree with this description when seat numbers and row ids
are unambiguous. -/
def postBlinds (players : List Player) (sb_seat bb_seat sb bb : Int) :
    List Player :=
  players.map (fun p =>
    if p.seat_number = sb_seat then { p with chip_count := p.chip_count - sb }
    else if p.seat_number = bb_seat then { p with chip_count := p.chip_count - bb }
    else p)

/-- `deck.pop()`: remove and return the last element ("top" of the deck);
raises `IndexError` on an empty list (`none`). -/
def pop? (l : List String) : Option (String × List String) :=
  match l.getLast? with
  | none => none
  | some c => some (c, l.dropLast)

/-- The dealing loop of `start_new_hand`:
`for player in players: cards_to_deal = [deck.pop(), deck.pop()]` followed by
a per-seat `cards` update.  Returns the per-seat-id card assignments and the
remaining deck, or `none` if the deck runs out. -/
def dealToPlayers (players : List Player) (deck : List String) :
    Option (List (Nat × List String) × List String) :=
  match players with
  | [] => some ([], deck)
  | p :: rest =>
    match pop? deck with
    | none => none
    | some (c1, deck1) =>
      match pop? deck1 with
      | none => none
      | some (c2, deck2) =>
        match dealToPlayers rest deck2 with
        | none => none
        | some (asgn, deckF) => some ((p.id, [c1, c2]) :: asgn, deckF)

/-- `random.choice([p['seat_number'] for p in players])`: returns some element
of the list of seat numbers, selected by the random draw `k`; raises
`IndexError` on an empty list. -/
def dealerChoice (players : List Player) (k : Nat) : Option Int :=
  let seats := players.map (·.seat_number)
  match seats with
  | [] => none
  | _ => some (seats.getD (k % seats.length) 0)

/-- The `game_state_update` dict written by `start_new_hand`. -/
structure GameStateUpdate where
  dealer_position : Int
  pot_size : Int
  current_bet : Int
  community_cards : List String
  current_player_turn : Nat
  deriving DecidableEq, Repr

/-- `start_new_hand` from `api/games.py`: shuffle and deal, pick the dealer
at random, resolve positions, post blinds, write the new game state.
`rand` carries the shuffle's random draws and `k` the `random.choice` draw.
The result is (card assignments, updated seats rows, game-state update);
`none` models an uncaught exception. -/
def start_new_hand (players : List Player) (settings : GameSettings)
    (rand : List Nat) (k : Nat) :
    Option (List (Nat × List String) × List Player × GameStateUpdate) :=
  let deck := shuffle_deck rand create_deck
  match dealToPlayers players deck with
  | none => none
  | some (asgn, _) =>
    match dealerChoice players k with
    | none => none
    | some dealer_seat =>
      match get_player_positions players dealer_seat with
      | none => none
      | some (sb_seat, bb_seat, utg_seat) =>
        match players.find? (fun p => p.seat_number = sb_seat) with
        | none => none
        | some sb_player =>
          let seats1 := updateChips players sb_player.id
            (sb_player.chip_count - settings.small_blind)
          match players.find? (fun p => p.seat_number = bb_seat) with
          | none => none
          | some bb_player =>
            let seats2 := updateChips seats1 bb_player.id
              (bb_player.chip_count - settings.big_blind)
            match players.find? (fun p => p.seat_number = utg_seat) with
            | none => none
            | some utg_player =>
              some (asgn, seats2,
                { dealer_position := dealer_seat
                  pot_size := settings.small_blind + settings.big_blind
                  current_bet := settings.big_blind
                  community_cards := []
                  current_player_turn := utg_player.user_id })

/-- `start_game` from `api/games.py`: host and status guards, the
fewer-than-2-players guard (HTTP 400), then the first hand.  Error values
are the HTTP status codes raised; an exception escaping `start_new_hand`
is caught by the generic handler and becomes HTTP 500. -/
def start_game (is_host : Bool) (game_status : String) (players : List Player)
    (settings : GameSettings) (rand : List Nat) (k : Nat) :
    Except Nat (List (Nat × List String) × List Player × GameStateUpdate) :=
  if ¬ is_host then .error 403
  else if game_status ≠ "waiting" then .error 400
  else if players.length < 2 then .error 400
  else
    match start_new_hand players settings rand k with
    | none => .error 500
    | some r => .ok r

/-- A row of the `seats` table as `join_game` selects it
(`user_id, seat_number`). -/
structure SeatRow where
  user_id : Nat
  seat_number : Int
  deriving DecidableEq, Repr

/-- `join_game` from `api/games.py`: status guard, fullness guard,
already-seated guard, then the first free seat in `range(1, max_players+1)`.
On success the new row is inserted; error values are the HTTP status codes. -/
def join_game (game_status : String) (max_players : Nat)
    (seats : List SeatRow) (player_id : Nat) :
    Except Nat (Nat × List SeatRow) :=
  if game_status ≠ "waiting" then .error 403
  else if max_players ≤ seats.length then .error 403
  else if seats.any (fun s => s.user_id = player_id) then .error 400
  else
    match (List.range' 1 max_players).find?
        (fun n => Int.ofNat n ∉ seats.map (·.seat_number)) with
    | none => .error 500
    | some n => .ok (n, seats ++ [⟨player_id, Int.ofNat n⟩])

/-- Specification-side helper: the number of eligible (status `playing`)
seats. -/
def countEligible (players : List Player) : Nat :=
  (players.filter (fun p => p.status = "playing")).length

/-- Specification-side reading of "the next eligible seat after `x` in
ascending seat-number order, wrapping circularly": the smallest eligible
seat number greater than `x`, or the smallest eligible seat number overall
if none is greater. -/
def nextEligibleAfter (seats : List Int) (x : Int) : Option Int :=
  match (seats.filter (fun s => x < s)).min? with
  | some m => some m
  | none => seats.min?

/-- Four pairwise-distinct seat numbers. -/
def allDistinct4 (a b c d : Int) : Prop :=
  a ≠ b ∧ a ≠ c ∧ a ≠ d ∧ b ≠ c ∧ b ≠ d ∧ c ≠ d

/-! ## Helper lemmas about the sorted eligible-seat list -/

lemma eligiblePlayers_sorted (players : List Player) :
    (eligiblePlayers players).Pairwise (fun a b => a.seat_number ≤ b.seat_number) := by
  haveI : IsTotal Player (fun a b => a.seat_number ≤ b.seat_number) :=
    ⟨fun a b => le_total _ _⟩
  haveI : IsTrans Player (fun a b => a.seat_number ≤ b.seat_number) :=
    ⟨fun a b c hab hbc => le_trans hab hbc⟩
  exact List.sorted_insertionSort _ _

lemma eligiblePlayers_perm (players : List Player) :
    List.Perm (eligiblePlayers players)
      (players.filter (fun p => p.status = "playing")) :=
  List.perm_insertionSort _ _

lemma playerSeats_sorted_le (players : List Player) :
    (playerSeats players).Sorted (· ≤ ·) := by
  unfold playerSeats
  rw [List.Sorted, List.pairwise_map]
  exact eligiblePlayers_sorted players

lemma playerSeats_sorted_lt (players : List Player)
    (h : (playerSeats players).Nodup) :
    (playerSeats players).Sorted (· < ·) :=
  (playerSeats_sorted_le players).lt_of_le h

lemma mem_playerSeats (players : List Player) (s : Int) :
    s ∈ playerSeats players ↔
      ∃ p ∈ players, p.status = "playing" ∧ p.seat_number = s := by
  unfold playerSeats
  simp only [List.mem_map, (eligiblePlayers_perm players).mem_iff, List.mem_filter,
    decide_eq_true_eq]
  constructor
  · rintro ⟨p, ⟨hp, hst⟩, rfl⟩
    exact ⟨p, hp, hst, rfl⟩
  · rintro ⟨p, hp, hst, rfl⟩
    exact ⟨p, ⟨hp, hst⟩, rfl⟩

lemma playerSeats_length (players : List Player) :
    (playerSeats players).length = countEligible players := by
  unfold playerSeats countEligible
  rw [List.length_map, (eligiblePlayers_perm players).length_eq]

lemma getD_mem (l : List Int) (i : Nat) (hi : i < l.length) : l.getD i 0 ∈ l := by
  rw [List.getD_eq_getElem _ _ hi]
  exact List.getElem_mem _

lemma nodup_getD_ne (l : List Int) (h : l.Nodup) (i j : Nat)
    (hi : i < l.length) (hj : j < l.length) (hij : i ≠ j) :
    l.getD i 0 ≠ l.getD j 0 := by
  rw [List.getD_eq_getElem _ _ hi, List.getD_eq_getElem _ _ hj]
  intro he
  exact hij (h.getElem_inj_iff.1 he)

lemma getD_indexOf (l : List Int) (s : Int) (h : s ∈ l) :
    l.getD (l.indexOf s) 0 = s := by
  have hlt : l.indexOf s < l.length := List.indexOf_lt_length.2 h
  rw [List.getD_eq_getElem _ _ hlt]
  exact List.getElem_indexOf hlt

lemma mod_shift_ne (n i a b : Nat) (hab : a < b) (hbn : b < n) :
    (i + a) % n ≠ (i + b) % n := by
  intro h
  have h1 : (i + a) ≡ (i + b) [MOD n] := h
  have h2 : n ∣ (i + b) - (i + a) := (Nat.modEq_iff_dvd' (by omega)).1 h1
  have h3 : n ≤ (i + b) - (i + a) := Nat.le_of_dvd (by omega) h2
  omega

lemma mod_shift_ne0 (n i b : Nat) (hb : 0 < b) (hbn : b < n) (hi : i < n) :
    i ≠ (i + b) % n := by
  have h := mod_shift_ne n i 0 b hb hbn
  simpa [Nat.mod_eq_of_lt hi] using h

lemma sorted_getD_le (l : List Int) (h : l.Sorted (· < ·)) (i j : Nat)
    (hij : i ≤ j) (hj : j < l.length) : l.getD i 0 ≤ l.getD j 0 := by
  have hi : i < l.length := lt_of_le_of_lt hij hj
  rw [List.getD_eq_getElem _ _ hi, List.getD_eq_getElem _ _ hj]
  rcases Nat.eq_or_lt_of_le hij with rfl | hlt
  · exact le_refl _
  · have hr := h.rel_get_of_lt (a := ⟨i, hi⟩) (b := ⟨j, hj⟩) hlt
    simpa [List.get_eq_getElem] using le_of_lt hr

lemma sorted_getD_lt (l : List Int) (h : l.Sorted (· < ·)) (i j : Nat)
    (hij : i < j) (hj : j < l.length) : l.getD i 0 < l.getD j 0 := by
  have hi : i < l.length := lt_trans hij hj
  rw [List.getD_eq_getElem _ _ hi, List.getD_eq_getElem _ _ hj]
  have hr := h.rel_get_of_lt (a := ⟨i, hi⟩) (b := ⟨j, hj⟩) hij
  simpa [List.get_eq_getElem] using hr

lemma sorted_next (l : List Int) (hs : l.Sorted (· < ·)) (i : Nat) (hi : i < l.length) :
    nextEligibleAfter l (l.getD i 0) = some (l.getD ((i + 1) % l.length) 0) := by
  have antis : Std.Antisymm ((· : Int) ≤ ·) := ⟨fun hab hba => le_antisymm hab hba⟩
  by_cases hcase : i + 1 < l.length
  · rw [Nat.mod_eq_of_lt hcase]
    have hmin : (l.filter (fun s => decide (l.getD i 0 < s))).min? = some (l.getD (i + 1) 0) := by
      rw [List.min?_eq_some_iff (fun a => le_refl a) (fun a b => min_choice a b)
        (fun a b c => le_min_iff)]
      constructor
      · rw [List.mem_filter]
        refine ⟨?_, decide_eq_true (sorted_getD_lt l hs i (i + 1) (Nat.lt_succ_self i) hcase)⟩
        rw [List.getD_eq_getElem _ _ hcase]
        exact List.getElem_mem _
      · intro b hb
        rw [List.mem_filter] at hb
        obtain ⟨hbl, hlt⟩ := hb
        obtain ⟨j, hj, rfl⟩ := List.mem_iff_getElem.1 hbl
        have hlt2 : l.getD i 0 < l[j] := of_decide_eq_true hlt
        rw [← List.getD_eq_getElem _ _ hj] at hlt2 ⊢
        by_contra hcon
        push_neg at hcon
        have hji : j < i + 1 := by
          by_contra hji
          push_neg at hji
          exact absurd (sorted_getD_le l hs (i + 1) j hji hj) (not_le.2 hcon)
        have hle : l.getD j 0 ≤ l.getD i 0 :=
          sorted_getD_le l hs j i (Nat.lt_succ_iff.1 hji) hi
        exact absurd hlt2 (not_lt.2 hle)
    unfold nextEligibleAfter
    rw [hmin]
  · have hlen : i + 1 = l.length := Nat.le_antisymm hi (Nat.not_lt.1 hcase)
    have hmod : (i + 1) % l.length = 0 := by rw [hlen]; exact Nat.mod_self _
    rw [hmod]
    have hfil : l.filter (fun s => decide (l.getD i 0 < s)) = [] := by
      rw [List.filter_eq_nil_iff]
      intro x hx
      obtain ⟨j, hj, rfl⟩ := List.mem_iff_getElem.1 hx
      have hji : j ≤ i := by omega
      have hle := sorted_getD_le l hs j i hji hi
      rw [List.getD_eq_getElem _ _ hj] at hle
      simp only [decide_eq_true_eq]
      exact not_lt.2 hle
    have hmin : l.min? = some (l.getD 0 0) := by
      rw [List.min?_eq_some_iff (fun a => le_refl a) (fun a b => min_choice a b)
        (fun a b c => le_min_iff)]
      have h0 : 0 < l.length := Nat.pos_of_ne_zero (by omega)
      constructor
      · rw [List.getD_eq_getElem _ _ h0]
        exact List.getElem_mem _
      · intro b hb
        obtain ⟨j, hj, rfl⟩ := List.mem_iff_getElem.1 hb
        rw [← List.getD_eq_getElem _ _ hj]
        exact sorted_getD_le l hs 0 j (Nat.zero_le j) hj
    unfold nextEligibleAfter
    rw [hfil, hmin]
    simp [List.min?_nil]

/-- C1 (amended): for 2-8 eligible seats with distinct seat numbers and the
dealer among them, `get_player_positions` succeeds and the button, small
blind, big blind and first-to-act seats are pairwise distinct, except that
in heads-up the button is the small blind and acts first, and with exactly
three eligible seats the first-to-act seat is the button itself. -/
theorem c1_amended_distinctness
    (players : List Player) (dealer : Int)
    (hnodup : (playerSeats players).Nodup)
    (hlo : 2 ≤ countEligible players) (hhi : countEligible players ≤ 8)
    (hdealer : dealer ∈ playerSeats players) :
    ∃ sb bb utg,
      get_player_positions players dealer = some (sb, bb, utg) ∧
      (countEligible players = 2 → sb = dealer ∧ bb ≠ dealer ∧ utg = dealer) ∧
      (countEligible players = 3 →
        dealer ≠ sb ∧ dealer ≠ bb ∧ sb ≠ bb ∧ utg = dealer) ∧
      (4 ≤ countEligible players → allDistinct4 dealer sb bb utg) := by
  have hcount : (playerSeats players).length = countEligible players :=
    playerSeats_length players
  have hi : (playerSeats players).indexOf dealer < (playerSeats players).length :=
    List.indexOf_lt_length.2 hdealer
  have hdi : (playerSeats players).getD ((playerSeats players).indexOf dealer) 0 = dealer :=
    getD_indexOf _ _ hdealer
  rcases Nat.lt_or_ge (countEligible players) 3 with hc | hc
  · -- heads-up
    have h2 : countEligible players = 2 := by omega
    have hn2 : (playerSeats players).length = 2 := by omega
    refine ⟨dealer,
      (playerSeats players).getD
        (((playerSeats players).indexOf dealer + 1) % (playerSeats players).length) 0,
      dealer, ?_, ?_, ?_, ?_⟩
    · unfold get_player_positions
      simp only [if_pos hdealer, if_pos hn2, hdi]
    · refine fun _ => ⟨rfl, ?_, rfl⟩
      have hne : ((playerSeats players).indexOf dealer + 1) % (playerSeats players).length ≠
          (playerSeats players).indexOf dealer := by
        rw [hn2] at hi ⊢
        omega
      have hne2 := nodup_getD_ne _ hnodup _ _ (Nat.mod_lt _ (by omega)) hi hne
      rw [hdi] at hne2
      exact hne2
    · intro h3
      omega
    · intro h4
      omega
  · -- 3 or more eligible seats
    have hn3 : 3 ≤ (playerSeats players).length := by omega
    have hn2 : (playerSeats players).length ≠ 2 := by omega
    have hn0 : (playerSeats players).length ≠ 0 := by omega
    have hnpos : 0 < (playerSeats players).length := by omega
    refine ⟨(playerSeats players).getD
        (((playerSeats players).indexOf dealer + 1) % (playerSeats players).length) 0,
      (playerSeats players).getD
        (((playerSeats players).indexOf dealer + 2) % (playerSeats players).length) 0,
      (playerSeats players).getD
        (((playerSeats players).indexOf dealer + 3) % (playerSeats players).length) 0,
      ?_, ?_, ?_, ?_⟩
    · unfold get_player_positions
      simp only [if_pos hdealer, if_neg hn2, if_neg hn0]
    · intro h2
      omega
    · intro h3
      have hn : (playerSeats players).length = 3 := by omega
      refine ⟨?_, ?_, ?_, ?_⟩
      · have hne := nodup_getD_ne _ hnodup _ _ hi (Nat.mod_lt _ hnpos)
          (mod_shift_ne0 _ _ 1 (by omega) (by omega) hi)
        rw [hdi] at hne
        exact hne
      · have hne := nodup_getD_ne _ hnodup _ _ hi (Nat.mod_lt _ hnpos)
          (mod_shift_ne0 _ _ 2 (by omega) (by omega) hi)
        rw [hdi] at hne
        exact hne
      · exact nodup_getD_ne _ hnodup _ _ (Nat.mod_lt _ hnpos) (Nat.mod_lt _ hnpos)
          (mod_shift_ne _ _ 1 2 (by omega) (by omega))
      · have hmod : ((playerSeats players).indexOf dealer + 3) %
            (playerSeats players).length = (playerSeats players).indexOf dealer := by
          rw [hn]
          rw [Nat.add_mod_right]
          exact Nat.mod_eq_of_lt (by omega)
        rw [hmod, hdi]
    · intro h4
      have hn : 4 ≤ (playerSeats players).length := by omega
      have d1 : dealer ≠ (playerSeats players).getD
          (((playerSeats players).indexOf dealer + 1) % (playerSeats players).length) 0 := by
        have hne := nodup_getD_ne _ hnodup _ _ hi (Nat.mod_lt _ hnpos)
          (mod_shift_ne0 _ _ 1 (by omega) (by omega) hi)
        rw [hdi] at hne
        exact hne
      have d2 : dealer ≠ (playerSeats players).getD
          (((playerSeats players).indexOf dealer + 2) % (playerSeats players).length) 0 := by
        have hne := nodup_getD_ne _ hnodup _ _ hi (Nat.mod_lt _ hnpos)
          (mod_shift_ne0 _ _ 2 (by omega) (by omega) hi)
        rw [hdi] at hne
        exact hne
      have d3 : dealer ≠ (playerSeats players).getD
          (((playerSeats players).indexOf dealer + 3) % (playerSeats players).length) 0 := by
        have hne := nodup_getD_ne _ hnodup _ _ hi (Nat.mod_lt _ hnpos)
          (mod_shift_ne0 _ _ 3 (by omega) (by omega) hi)
        rw [hdi] at hne
        exact hne
      refine ⟨d1, d2, d3, ?_, ?_, ?_⟩
      · exact nodup_getD_ne _ hnodup _ _ (Nat.mod_lt _ hnpos) (Nat.mod_lt _ hnpos)
          (mod_shift_ne _ _ 1 2 (by omega) (by omega))
      · exact nodup_getD_ne _ hnodup _ _ (Nat.mod_lt _ hnpos) (Nat.mod_lt _ hnpos)
          (mod_shift_ne _ _ 1 3 (by omega) (by omega))
      · exact nodup_getD_ne _ hnodup _ _ (Nat.mod_lt _ hnpos) (Nat.mod_lt _ hnpos)
          (mod_shift_ne _ _ 2 3 (by omega) (by omega))

def c1ConcretePlayers : List Player :=
  [⟨1, 11, 1, 100, "playing"⟩, ⟨2, 12, 2, 100, "playing"⟩,
   ⟨3, 13, 3, 100, "playing"⟩, ⟨4, 14, 4, 100, "playing"⟩]

/-- C1 counterexample: with three eligible seats 1, 2, 3 and the button at
seat 1, `get_player_positions` returns first-to-act seat 1 = the button, so
button/SB/BB/first-to-act are not pairwise distinct although N = 3 is not
heads-up. -/
theorem c1_counterexample_three_handed :
    get_player_positions
      [⟨1, 11, 1, 100, "playing"⟩, ⟨2, 12, 2, 100, "playing"⟩,
       ⟨3, 13, 3, 100, "playing"⟩] 1 = some (2, 3, 1) ∧
    ¬ allDistinct4 1 2 3 1 := by
  constructor
  · decide
  · unfold allDistinct4
    decide

/-- Witness for the amended C1 at a concrete four-player table. -/
theorem c1_amended_distinctness_witness :
    ((playerSeats c1ConcretePlayers).Nodup ∧
      2 ≤ countEligible c1ConcretePlayers ∧
      countEligible c1ConcretePlayers ≤ 8 ∧
      (1 : Int) ∈ playerSeats c1ConcretePlayers) ∧
    (∃ sb bb utg,
      get_player_positions c1ConcretePlayers 1 = some (sb, bb, utg) ∧
      (countEligible c1ConcretePlayers = 2 → sb = 1 ∧ bb ≠ 1 ∧ utg = 1) ∧
      (countEligible c1ConcretePlayers = 3 →
        (1 : Int) ≠ sb ∧ (1 : Int) ≠ bb ∧ sb ≠ bb ∧ utg = 1) ∧
      (4 ≤ countEligible c1ConcretePlayers → allDistinct4 1 sb bb utg)) :=
  ⟨⟨by decide, by decide, by decide, by decide⟩,
    c1_amended_distinctness c1ConcretePlayers 1 (by decide) (by decide) (by decide) (by decide)⟩

/-- C10: if the given dealer seat is not among the `playing` seats and at
least two seats are eligible, `get_player_positions` does not fail and
computes the same positions as if the button were at the lowest-numbered
eligible seat (index 0 of the sorted eligible list). -/
theorem c10_missing_dealer_defaults_to_lowest
    (players : List Player) (dealer : Int)
    (h2 : 2 ≤ countEligible players)
    (hd : dealer ∉ playerSeats players) :
    get_player_positions players dealer =
      get_player_positions players ((playerSeats players).headD 0) ∧
    (get_player_positions players dealer).isSome = true := by
  have hcount : (playerSeats players).length = countEligible players :=
    playerSeats_length players
  obtain ⟨a, t, hL⟩ : ∃ a t, playerSeats players = a :: t := by
    cases hc : playerSeats players with
    | nil =>
      rw [hc] at hcount
      simp only [List.length_nil] at hcount
      omega
    | cons a t => exact ⟨a, t, rfl⟩
  have hmem : (playerSeats players).headD 0 ∈ playerSeats players := by
    rw [hL]
    simp
  have hidx : (playerSeats players).indexOf ((playerSeats players).headD 0) = 0 := by
    rw [hL]
    simp [List.indexOf_cons_self]
  unfold get_player_positions
  simp only [if_neg hd, if_pos hmem, hidx]
  refine ⟨trivial, ?_⟩
  split_ifs with hc1 hc2
  · rfl
  · rw [hL] at hc2
    simp only [List.length_cons] at hc2
    omega
  · rfl

/-- Witness for C10: dealer seat 7 is folded, positions resolve from the
lowest playing seat. -/
theorem c10_missing_dealer_defaults_to_lowest_witness :
    (2 ≤ countEligible
        [⟨1, 11, 2, 100, "playing"⟩, ⟨2, 12, 5, 100, "playing"⟩,
         ⟨3, 13, 7, 100, "folded"⟩] ∧
      (7 : Int) ∉ playerSeats
        [⟨1, 11, 2, 100, "playing"⟩, ⟨2, 12, 5, 100, "playing"⟩,
         ⟨3, 13, 7, 100, "folded"⟩]) ∧
    (get_player_positions
        [⟨1, 11, 2, 100, "playing"⟩, ⟨2, 12, 5, 100, "playing"⟩,
         ⟨3, 13, 7, 100, "folded"⟩] 7 =
      get_player_positions
        [⟨1, 11, 2, 100, "playing"⟩, ⟨2, 12, 5, 100, "playing"⟩,
         ⟨3, 13, 7, 100, "folded"⟩]
        ((playerSeats
          [⟨1, 11, 2, 100, "playing"⟩, ⟨2, 12, 5, 100, "playing"⟩,
           ⟨3, 13, 7, 100, "folded"⟩]).headD 0) ∧
      (get_player_positions
        [⟨1, 11, 2, 100, "playing"⟩, ⟨2, 12, 5, 100, "playing"⟩,
         ⟨3, 13, 7, 100, "folded"⟩] 7).isSome = true) :=
  ⟨⟨by decide, by decide⟩,
    c10_missing_dealer_defaults_to_lowest _ 7 (by decide) (by decide)⟩

/-- C2: for a `playing` dealer seat and distinct eligible seat numbers:
heads-up, the small blind is the dealer seat, first-to-act is the dealer
seat, and the other eligible seat is the big blind; with three or more
eligible seats, SB is the next eligible seat after the dealer in ascending
circular seat order (`nextEligibleAfter`), BB the next after that, and
first-to-act the next after the BB. -/
theorem c2_positions_follow_circular_seat_order
    (players : List Player) (dealer : Int)
    (hnodup : (playerSeats players).Nodup)
    (hdealer : ∃ p ∈ players, p.status = "playing" ∧ p.seat_number = dealer) :
    (countEligible players = 2 →
      ∃ bb, get_player_positions players dealer = some (dealer, bb, dealer) ∧
        bb ∈ playerSeats players ∧ bb ≠ dealer) ∧
    (3 ≤ countEligible players →
      ∃ sb bb utg, get_player_positions players dealer = some (sb, bb, utg) ∧
        nextEligibleAfter (playerSeats players) dealer = some sb ∧
        nextEligibleAfter (playerSeats players) sb = some bb ∧
        nextEligibleAfter (playerSeats players) bb = some utg) := by
  have hmem : dealer ∈ playerSeats players := by
    rw [mem_playerSeats]
    exact hdealer
  have hi : (playerSeats players).indexOf dealer < (playerSeats players).length :=
    List.indexOf_lt_length.2 hmem
  have hdi : (playerSeats players).getD ((playerSeats players).indexOf dealer) 0 = dealer :=
    getD_indexOf _ _ hmem
  have hslt : (playerSeats players).Sorted (· < ·) := playerSeats_sorted_lt _ hnodup
  have hcount : (playerSeats players).length = countEligible players :=
    playerSeats_length players
  constructor
  · intro h2
    have hn2 : (playerSeats players).length = 2 := by rw [hcount]; exact h2
    refine ⟨(playerSeats players).getD
      (((playerSeats players).indexOf dealer + 1) % (playerSeats players).length) 0, ?_, ?_, ?_⟩
    · unfold get_player_positions
      simp only [if_pos hmem, if_pos hn2, hdi]
    · exact getD_mem _ _ (Nat.mod_lt _ (by omega))
    · have hne : ((playerSeats players).indexOf dealer + 1) % (playerSeats players).length ≠
          (playerSeats players).indexOf dealer := by
        rw [hn2] at hi ⊢
        omega
      have hne2 := nodup_getD_ne _ hnodup _ _ (Nat.mod_lt _ (by omega)) hi hne
      rw [hdi] at hne2
      exact hne2
  · intro h3
    have hn3 : 3 ≤ (playerSeats players).length := by rw [hcount]; exact h3
    have hn2 : (playerSeats players).length ≠ 2 := by omega
    have hn0 : (playerSeats players).length ≠ 0 := by omega
    have hnpos : 0 < (playerSeats players).length := by omega
    refine ⟨(playerSeats players).getD
        (((playerSeats players).indexOf dealer + 1) % (playerSeats players).length) 0,
      (playerSeats players).getD
        (((playerSeats players).indexOf dealer + 2) % (playerSeats players).length) 0,
      (playerSeats players).getD
        (((playerSeats players).indexOf dealer + 3) % (playerSeats players).length) 0,
      ?_, ?_, ?_, ?_⟩
    · unfold get_player_positions
      simp only [if_pos hmem, if_neg hn2, if_neg hn0]
    · have h := sorted_next _ hslt _ hi
      rw [hdi] at h
      exact h
    · have h := sorted_next _ hslt
        (((playerSeats players).indexOf dealer + 1) % (playerSeats players).length)
        (Nat.mod_lt _ hnpos)
      rw [Nat.mod_add_mod] at h
      exact h
    · have h := sorted_next _ hslt
        (((playerSeats players).indexOf dealer + 2) % (playerSeats players).length)
        (Nat.mod_lt _ hnpos)
      rw [Nat.mod_add_mod] at h
      exact h

/-- Witness for C2 at a concrete three-player table with dealer seat 2. -/
theorem c2_positions_follow_circular_seat_order_witness :
    ((playerSeats
        [⟨1, 11, 1, 100, "playing"⟩, ⟨2, 12, 2, 100, "playing"⟩,
         ⟨3, 13, 3, 100, "playing"⟩]).Nodup ∧
      (∃ p ∈ [⟨1, 11, 1, 100, "playing"⟩, ⟨2, 12, 2, 100, "playing"⟩,
         (⟨3, 13, 3, 100, "playing"⟩ : Player)],
        p.status = "playing" ∧ p.seat_number = 2)) ∧
    ((countEligible
        [⟨1, 11, 1, 100, "playing"⟩, ⟨2, 12, 2, 100, "playing"⟩,
         ⟨3, 13, 3, 100, "playing"⟩] = 2 →
      ∃ bb, get_player_positions
          [⟨1, 11, 1, 100, "playing"⟩, ⟨2, 12, 2, 100, "playing"⟩,
           ⟨3, 13, 3, 100, "playing"⟩] 2 = some (2, bb, 2) ∧
        bb ∈ playerSeats
          [⟨1, 11, 1, 100, "playing"⟩, ⟨2, 12, 2, 100, "playing"⟩,
           ⟨3, 13, 3, 100, "playing"⟩] ∧ bb ≠ 2) ∧
    (3 ≤ countEligible
        [⟨1, 11, 1, 100, "playing"⟩, ⟨2, 12, 2, 100, "playing"⟩,
         ⟨3, 13, 3, 100, "playing"⟩] →
      ∃ sb bb utg, get_player_positions
          [⟨1, 11, 1, 100, "playing"⟩, ⟨2, 12, 2, 100, "playing"⟩,
           ⟨3, 13, 3, 100, "playing"⟩] 2 = some (sb, bb, utg) ∧
        nextEligibleAfter (playerSeats
          [⟨1, 11, 1, 100, "playing"⟩, ⟨2, 12, 2, 100, "playing"⟩,
           ⟨3, 13, 3, 100, "playing"⟩]) 2 = some sb ∧
        nextEligibleAfter (playerSeats
          [⟨1, 11, 1, 100, "playing"⟩, ⟨2, 12, 2, 100, "playing"⟩,
           ⟨3, 13, 3, 100, "playing"⟩]) sb = some bb ∧
        nextEligibleAfter (playerSeats
          [⟨1, 11, 1, 100, "playing"⟩, ⟨2, 12, 2, 100, "playing"⟩,
           ⟨3, 13, 3, 100, "playing"⟩]) bb = some utg)) :=
  ⟨⟨by decide, by decide⟩,
    c2_positions_follow_circular_seat_order _ 2 (by decide) (by decide)⟩

/-- C4 counterexample: with exactly one `playing` seat (fewer than 2),
`get_player_positions` does not fail at all - it returns that single seat
as small blind, big blind and first-to-act. -/
theorem c4_counterexample_single_seat_succeeds :
    countEligible [⟨1, 11, 4, 100, "playing"⟩] = 1 ∧
    get_player_positions [⟨1, 11, 4, 100, "playing"⟩] 4 = some (4, 4, 4) := by
  decide

/-- C4 (amended): with zero eligible seats `get_player_positions` fails
(with a `ZeroDivisionError`, not an `InsufficientPlayers` error); with
exactly one eligible seat it succeeds, returning that seat for all three
positions; separately, `start_game` (invoked by the host on a waiting game)
rejects a table with fewer than 2 total seats with an HTTP 400 error before
starting a hand. -/
theorem c4_amended_insufficient_players
    (players : List Player) (dealer : Int) :
    (countEligible players = 0 → get_player_positions players dealer = none) ∧
    (countEligible players = 1 →
      ∃ s, playerSeats players = [s] ∧
        get_player_positions players dealer = some (s, s, s)) ∧
    (∀ settings rand k, players.length < 2 →
      start_game true "waiting" players settings rand k = Except.error 400) := by
  have hcount : (playerSeats players).length = countEligible players :=
    playerSeats_length players
  refine ⟨?_, ?_, ?_⟩
  · intro h0
    have hseats : playerSeats players = [] := by
      rw [← List.length_eq_zero, hcount]
      exact h0
    unfold get_player_positions
    simp only [hseats]
    simp
  · intro h1
    have hlen : (playerSeats players).length = 1 := by rw [hcount]; exact h1
    obtain ⟨s, hseats⟩ := List.length_eq_one.1 hlen
    refine ⟨s, hseats, ?_⟩
    unfold get_player_positions
    simp only [hseats]
    by_cases hd : dealer ∈ [s]
    · have hds : dealer = s := by simpa using hd
      simp [hd, hds, List.indexOf_cons_self]
    · have hds : ¬ dealer = s := by simpa using hd
      simp [hd, hds]
  · intro settings rand k hlt
    unfold start_game
    rw [if_neg (by simp), if_neg (by simp), if_pos hlt]

/-- Witness for the amended C4 at concrete zero- and one-seat tables. -/
theorem c4_amended_insufficient_players_witness :
    (countEligible [⟨1, 11, 4, 100, "folded"⟩] = 0 ∧
      get_player_positions [⟨1, 11, 4, 100, "folded"⟩] 4 = none) ∧
    (countEligible [⟨1, 11, 4, 100, "playing"⟩] = 1 ∧
      (∃ s, playerSeats [⟨1, 11, 4, 100, "playing"⟩] = [s] ∧
        get_player_positions [⟨1, 11, 4, 100, "playing"⟩] 4 = some (s, s, s))) ∧
    ([(⟨1, 11, 4, 100, "playing"⟩ : Player)].length < 2 ∧
      start_game true "waiting" [⟨1, 11, 4, 100, "playing"⟩]
        ⟨100, 5, 10, 8⟩ [] 0 = Except.error 400) :=
  ⟨⟨by decide, (c4_amended_insufficient_players [⟨1, 11, 4, 100, "folded"⟩] 4).1 (by decide)⟩,
   ⟨by decide, (c4_amended_insufficient_players [⟨1, 11, 4, 100, "playing"⟩] 4).2.1 (by decide)⟩,
   ⟨by decide, (c4_amended_insufficient_players [⟨1, 11, 4, 100, "playing"⟩] 4).2.2
      ⟨100, 5, 10, 8⟩ [] 0 (by decide)⟩⟩

/-! ## Helper lemmas about dealing and shuffling -/

lemma pop?_spec (l : List String) (h : l ≠ []) :
    ∃ c, pop? l = some (c, l.dropLast) ∧ l.dropLast ++ [c] = l := by
  cases hgl : l.getLast? with
  | none => exact absurd (List.getLast?_eq_none_iff.1 hgl) h
  | some c =>
    refine ⟨c, ?_, ?_⟩
    · unfold pop?
      rw [hgl]
    · have hc : c = l.getLast h := by
        rw [List.getLast?_eq_getLast l h] at hgl
        exact (Option.some_inj.1 hgl).symm
      rw [hc]
      exact List.dropLast_concat_getLast h

lemma dealToPlayers_ok (players : List Player) (deck : List String)
    (h : 2 * players.length ≤ deck.length) :
    ∃ asgn rest removed,
      dealToPlayers players deck = some (asgn, rest) ∧
      asgn.map Prod.fst = players.map (·.id) ∧
      (∀ a ∈ asgn, (Prod.snd a).length = 2) ∧
      removed.length = 2 * players.length ∧
      rest ++ removed = deck ∧
      List.Perm ((asgn.map Prod.snd).flatten) removed := by
  induction players generalizing deck with
  | nil =>
    exact ⟨[], deck, [], rfl, rfl, by simp, rfl, by simp, List.Perm.refl _⟩
  | cons p ps ih =>
    have hlen : 2 ≤ deck.length := by
      simp only [List.length_cons] at h
      omega
    have hne : deck ≠ [] := by
      intro hc
      rw [hc] at hlen
      simp at hlen
    obtain ⟨c1, hpop1, hd1⟩ := pop?_spec deck hne
    have hlen1 : deck.dropLast.length = deck.length - 1 := List.length_dropLast _
    have hne2 : deck.dropLast ≠ [] := by
      intro hc
      rw [hc] at hlen1
      simp only [List.length_nil] at hlen1
      omega
    obtain ⟨c2, hpop2, hd2⟩ := pop?_spec deck.dropLast hne2
    have hlen2 : deck.dropLast.dropLast.length = deck.length - 2 := by
      rw [List.length_dropLast, hlen1]
      omega
    have hih : 2 * ps.length ≤ deck.dropLast.dropLast.length := by
      rw [hlen2]
      simp only [List.length_cons] at h
      omega
    obtain ⟨asgn, rest, removed, hdeal, hfst, hcards, hrlen, hsplit, hperm⟩ :=
      ih deck.dropLast.dropLast hih
    refine ⟨(p.id, [c1, c2]) :: asgn, rest, removed ++ [c2, c1], ?_, ?_, ?_, ?_, ?_, ?_⟩
    · simp only [dealToPlayers, hpop1, hpop2, hdeal]
    · simp [hfst]
    · intro a ha
      rcases List.mem_cons.1 ha with rfl | ha2
      · rfl
      · exact hcards a ha2
    · rw [List.length_append, hrlen]
      simp only [List.length_cons, List.length_nil]
      omega
    · rw [← List.append_assoc, hsplit]
      have hstep : deck.dropLast.dropLast ++ [c2, c1] =
          (deck.dropLast.dropLast ++ [c2]) ++ [c1] := by
        rw [List.append_assoc]
        rfl
      rw [hstep, hd2, hd1]
    · have hflat : (((p.id, [c1, c2]) :: asgn).map Prod.snd).flatten =
          [c1, c2] ++ (asgn.map Prod.snd).flatten := by
        simp
      rw [hflat]
      refine List.Perm.trans (List.Perm.append_left [c1, c2] hperm) ?_
      refine List.Perm.trans List.perm_append_comm ?_
      exact List.Perm.append_left removed (List.Perm.swap c2 c1 [])

lemma shuffle_deck_perm (rand : List Nat) (l : List String) :
    List.Perm (shuffle_deck rand l) l := by
  induction rand generalizing l with
  | nil => simp [shuffle_deck]
  | cons j js ih =>
    cases l with
    | nil => simp [shuffle_deck]
    | cons d ds =>
      have hi : j % (d :: ds).length < (d :: ds).length := by
        apply Nat.mod_lt
        simp
      show List.Perm ((d :: ds).getD (j % (d :: ds).length) "" ::
        shuffle_deck js ((d :: ds).eraseIdx (j % (d :: ds).length))) (d :: ds)
      refine List.Perm.trans (List.Perm.cons _ (ih _)) ?_
      rw [List.getD_eq_getElem _ _ hi]
      refine List.Perm.trans (List.Perm.cons _ (List.erase_getElem hi).symm) ?_
      exact (List.perm_cons_erase (List.getElem_mem _)).symm

/-! ## Helper lemmas about positions and blind posting -/

lemma playerSeats_nodup (players : List Player)
    (hseat : (players.map (·.seat_number)).Nodup) :
    (playerSeats players).Nodup := by
  have h1 : List.Perm (playerSeats players)
      ((players.filter (fun p => p.status = "playing")).map (·.seat_number)) :=
    List.Perm.map _ (eligiblePlayers_perm players)
  have h2 : List.Sublist
      ((players.filter (fun p => p.status = "playing")).map (·.seat_number))
      (players.map (·.seat_number)) :=
    List.Sublist.map _ (List.filter_sublist _)
  exact h1.nodup_iff.2 (h2.nodup hseat)

lemma gpp_eq (players : List Player) (dealer : Int) :
    get_player_positions players dealer =
      (if (playerSeats players).length = 2 then
        some ((playerSeats players).getD (dealerIndex players dealer) 0,
          (playerSeats players).getD
            ((dealerIndex players dealer + 1) % (playerSeats players).length) 0,
          (playerSeats players).getD (dealerIndex players dealer) 0)
      else if (playerSeats players).length = 0 then none
      else
        some ((playerSeats players).getD
            ((dealerIndex players dealer + 1) % (playerSeats players).length) 0,
          (playerSeats players).getD
            ((dealerIndex players dealer + 2) % (playerSeats players).length) 0,
          (playerSeats players).getD
            ((dealerIndex players dealer + 3) % (playerSeats players).length) 0)) := rfl

lemma dealerIndex_lt (players : List Player) (dealer : Int)
    (hnpos : 0 < (playerSeats players).length) :
    dealerIndex players dealer < (playerSeats players).length := by
  unfold dealerIndex
  split_ifs with hd
  · exact List.indexOf_lt_length.2 hd
  · exact hnpos

lemma gpp_some_sb_ne_bb (players : List Player) (dealer : Int)
    (hnodup : (playerSeats players).Nodup)
    (h2 : 2 ≤ countEligible players) :
    ∃ sb bb utg, get_player_positions players dealer = some (sb, bb, utg) ∧
      sb ∈ playerSeats players ∧ bb ∈ playerSeats players ∧
      utg ∈ playerSeats players ∧ sb ≠ bb := by
  have hcount : (playerSeats players).length = countEligible players :=
    playerSeats_length players
  have hnpos : 0 < (playerSeats players).length := by omega
  have hidx := dealerIndex_lt players dealer hnpos
  rw [gpp_eq]
  generalize hgen : dealerIndex players dealer = i at hidx ⊢
  split_ifs with hn2 hn0
  · refine ⟨_, _, _, rfl, ?_, ?_, ?_, ?_⟩
    · exact getD_mem _ _ hidx
    · exact getD_mem _ _ (Nat.mod_lt _ hnpos)
    · exact getD_mem _ _ hidx
    · have hne : i ≠ (i + 1) % (playerSeats players).length := by
        rw [hn2] at hidx ⊢
        omega
      exact nodup_getD_ne _ hnodup _ _ hidx (Nat.mod_lt _ hnpos) hne
  · omega
  · refine ⟨_, _, _, rfl, ?_, ?_, ?_, ?_⟩
    · exact getD_mem _ _ (Nat.mod_lt _ hnpos)
    · exact getD_mem _ _ (Nat.mod_lt _ hnpos)
    · exact getD_mem _ _ (Nat.mod_lt _ hnpos)
    · exact nodup_getD_ne _ hnodup _ _ (Nat.mod_lt _ hnpos) (Nat.mod_lt _ hnpos)
        (mod_shift_ne _ _ 1 2 (by omega) (by omega))

lemma find?_seat (players : List Player) (s : Int) (hmem : s ∈ playerSeats players) :
    ∃ q, players.find? (fun p => p.seat_number = s) = some q ∧
      q ∈ players ∧ q.seat_number = s := by
  obtain ⟨p, hp, hst, hseat⟩ := (mem_playerSeats _ _).1 hmem
  have hsome : (players.find? (fun p => p.seat_number = s)).isSome := by
    rw [List.find?_isSome]
    exact ⟨p, hp, by simp [hseat]⟩
  obtain ⟨q, hq⟩ := Option.isSome_iff_exists.1 hsome
  refine ⟨q, hq, List.mem_of_find?_eq_some hq, ?_⟩
  have hpq := List.find?_some hq
  simpa using hpq

lemma eq_of_seat (players : List Player)
    (hseat : (players.map (·.seat_number)).Nodup)
    {p q : Player} (hp : p ∈ players) (hq : q ∈ players)
    (h : p.seat_number = q.seat_number) : p = q :=
  List.inj_on_of_nodup_map hseat hp hq h

lemma eq_of_id (players : List Player)
    (hid : (players.map (·.id)).Nodup)
    {p q : Player} (hp : p ∈ players) (hq : q ∈ players)
    (h : p.id = q.id) : p = q :=
  List.inj_on_of_nodup_map hid hp hq h

lemma dealerChoice_some (players : List Player) (k : Nat) (h : players ≠ []) :
    dealerChoice players k =
      some ((players.map (·.seat_number)).getD (k % players.length) 0) := by
  cases players with
  | nil => exact absurd rfl h
  | cons p ps =>
    unfold dealerChoice
    simp [List.length_map]

lemma sum_map_sub (l : List Player) (f g : Player → Int) :
    (l.map (fun p => f p - g p)).sum = (l.map f).sum - (l.map g).sum := by
  induction l with
  | nil => simp
  | cons q rest ih =>
    simp only [List.map_cons, List.sum_cons, ih]
    ring

lemma sum_ite_unique (l : List Player) (s : Int) (a : Int)
    (hnd : (l.map (·.seat_number)).Nodup)
    (hmem : ∃ p ∈ l, p.seat_number = s) :
    (l.map (fun p => if p.seat_number = s then a else 0)).sum = a := by
  induction l with
  | nil => simp at hmem
  | cons q rest ih =>
    simp only [List.map_cons, List.nodup_cons] at hnd
    obtain ⟨hqnot, hrest⟩ := hnd
    by_cases hq : q.seat_number = s
    · have hzero : (rest.map (fun p => if p.seat_number = s then a else 0)).sum = 0 := by
        apply List.sum_eq_zero
        intro x hx
        obtain ⟨p, hpmem, hpx⟩ := List.mem_map.1 hx
        have hps : p.seat_number ≠ s := by
          intro hc
          apply hqnot
          rw [List.mem_map]
          exact ⟨p, hpmem, by rw [hc, hq]⟩
        rw [if_neg hps] at hpx
        exact hpx.symm
      simp [hq, hzero]
    · obtain ⟨p, hpmem, hps⟩ := hmem
      rcases List.mem_cons.1 hpmem with rfl | hprest
      · exact absurd hps hq
      · simp only [List.map_cons, List.sum_cons, if_neg hq]
        rw [ih hrest ⟨p, hprest, hps⟩]
        ring

lemma updateChips_twice_eq_postBlinds
    (players : List Player) (sb_seat bb_seat sb bb : Int) (sbp bbp : Player)
    (hseat : (players.map (·.seat_number)).Nodup)
    (hid : (players.map (·.id)).Nodup)
    (hsbpmem : sbp ∈ players) (hsbpseat : sbp.seat_number = sb_seat)
    (hbbpmem : bbp ∈ players) (hbbpseat : bbp.seat_number = bb_seat)
    (hne : sb_seat ≠ bb_seat) :
    updateChips (updateChips players sbp.id (sbp.chip_count - sb)) bbp.id
      (bbp.chip_count - bb) = postBlinds players sb_seat bb_seat sb bb := by
  unfold updateChips postBlinds
  rw [List.map_map]
  apply List.map_congr_left
  intro p hp
  simp only [Function.comp_apply]
  by_cases hps : p.seat_number = sb_seat
  · have hpeq : p = sbp := eq_of_seat players hseat hp hsbpmem (by rw [hps, hsbpseat])
    have hpbb : p.id ≠ bbp.id := by
      intro hc
      have hpb : p = bbp := eq_of_id players hid hp hbbpmem hc
      rw [hpb, hbbpseat] at hps
      exact hne hps.symm
    rw [← hpeq]
    simp [hps, hpbb]
  · by_cases hpb : p.seat_number = bb_seat
    · have hpeq : p = bbp := eq_of_seat players hseat hp hbbpmem (by rw [hpb, hbbpseat])
      have hpsb : p.id ≠ sbp.id := by
        intro hc
        have hpsb2 : p = sbp := eq_of_id players hid hp hsbpmem hc
        rw [hpsb2, hsbpseat] at hps
        exact hps rfl
      rw [← hpeq]
      simp [hps, hpb, hpsb, Ne.symm hne]
    · have hpsb : p.id ≠ sbp.id := by
        intro hc
        have h1 : p = sbp := eq_of_id players hid hp hsbpmem hc
        rw [h1, hsbpseat] at hps
        exact hps rfl
      have hpbb : p.id ≠ bbp.id := by
        intro hc
        have h1 : p = bbp := eq_of_id players hid hp hbbpmem hc
        rw [h1, hbbpseat] at hpb
        exact hpb rfl
      simp [hps, hpb, hpsb, hpbb]

lemma start_new_hand_spec
    (players : List Player) (settings : GameSettings) (rand : List Nat) (k : Nat)
    (hseat : (players.map (·.seat_number)).Nodup)
    (hid : (players.map (·.id)).Nodup)
    (h2 : 2 ≤ countEligible players)
    (h8 : players.length ≤ 8) :
    ∃ asgn dealer sb_seat bb_seat utg_seat gs,
      dealerChoice players k = some dealer ∧
      get_player_positions players dealer = some (sb_seat, bb_seat, utg_seat) ∧
      sb_seat ≠ bb_seat ∧
      (∃ p ∈ players, p.seat_number = sb_seat) ∧
      (∃ p ∈ players, p.seat_number = bb_seat) ∧
      start_new_hand players settings rand k =
        some (asgn, postBlinds players sb_seat bb_seat settings.small_blind
          settings.big_blind, gs) ∧
      gs.dealer_position = dealer ∧
      gs.pot_size = settings.small_blind + settings.big_blind ∧
      gs.current_bet = settings.big_blind := by
  have hnodup := playerSeats_nodup players hseat
  have hne : players ≠ [] := by
    intro hc
    rw [hc] at h2
    simp [countEligible] at h2
  have hdc := dealerChoice_some players k hne
  obtain ⟨sb, bb, utg, hgpp, hsbm, hbbm, hutgm, hsbbb⟩ :=
    gpp_some_sb_ne_bb players
      ((players.map (·.seat_number)).getD (k % players.length) 0) hnodup h2
  obtain ⟨sbp, hfsb, hsbpmem, hsbpseat⟩ := find?_seat players sb hsbm
  obtain ⟨bbp, hfbb, hbbpmem, hbbpseat⟩ := find?_seat players bb hbbm
  obtain ⟨utgp, hfutg, hutgpmem, hutgpseat⟩ := find?_seat players utg hutgm
  have hdecklen : (shuffle_deck rand create_deck).length = 52 := by
    rw [(shuffle_deck_perm rand create_deck).length_eq]
    rfl
  obtain ⟨asgn, rest, removed, hdeal, hfst, hcards, hrlen, hsplit, hperm⟩ :=
    dealToPlayers_ok players (shuffle_deck rand create_deck)
      (by rw [hdecklen]; omega)
  refine ⟨asgn, (players.map (·.seat_number)).getD (k % players.length) 0,
    sb, bb, utg,
    { dealer_position := (players.map (·.seat_number)).getD (k % players.length) 0
      pot_size := settings.small_blind + settings.big_blind
      current_bet := settings.big_blind
      community_cards := []
      current_player_turn := utgp.user_id },
    hdc, hgpp, hsbbb, ⟨sbp, hsbpmem, hsbpseat⟩, ⟨bbp, hbbpmem, hbbpseat⟩,
    ?_, rfl, rfl, rfl⟩
  unfold start_new_hand
  simp only [hdeal, hdc, hgpp, hfsb, hfbb, hfutg]
  rw [updateChips_twice_eq_postBlinds players sb bb settings.small_blind
    settings.big_blind sbp bbp hseat hid hsbpmem hsbpseat hbbpmem hbbpseat hsbbb]

lemma sum_map_add (l : List Player) (f g : Player → Int) :
    (l.map (fun p => f p + g p)).sum = (l.map f).sum + (l.map g).sum := by
  induction l with
  | nil => simp
  | cons q rest ih =>
    simp only [List.map_cons, List.sum_cons, ih]
    ring

lemma postBlinds_sum (players : List Player) (sb_seat bb_seat sb bb : Int)
    (hseat : (players.map (·.seat_number)).Nodup)
    (hsbex : ∃ p ∈ players, p.seat_number = sb_seat)
    (hbbex : ∃ p ∈ players, p.seat_number = bb_seat)
    (hne : sb_seat ≠ bb_seat) :
    ((postBlinds players sb_seat bb_seat sb bb).map (·.chip_count)).sum =
      (players.map (·.chip_count)).sum - sb - bb := by
  unfold postBlinds
  rw [List.map_map]
  have hfun : ∀ p ∈ players,
      ((fun q : Player => q.chip_count) ∘ (fun p : Player =>
        if p.seat_number = sb_seat then { p with chip_count := p.chip_count - sb }
        else if p.seat_number = bb_seat then { p with chip_count := p.chip_count - bb }
        else p)) p =
      (fun p : Player => p.chip_count -
        ((if p.seat_number = sb_seat then sb else 0) +
         (if p.seat_number = bb_seat then bb else 0))) p := by
    intro p _
    simp only [Function.comp_apply]
    by_cases hps : p.seat_number = sb_seat
    · have hpb : ¬ p.seat_number = bb_seat := by
        rw [hps]
        exact hne
      simp [hps, hpb, hne]
    · by_cases hpb : p.seat_number = bb_seat
      · simp [hps, hpb, Ne.symm hne]
      · simp [hps, hpb]
  rw [List.map_congr_left hfun]
  rw [sum_map_sub players (fun p => p.chip_count)
    (fun p => (if p.seat_number = sb_seat then sb else 0) +
      (if p.seat_number = bb_seat then bb else 0))]
  rw [sum_map_add players (fun p => if p.seat_number = sb_seat then sb else 0)
    (fun p => if p.seat_number = bb_seat then bb else 0)]
  rw [sum_ite_unique players sb_seat sb hseat hsbex,
    sum_ite_unique players bb_seat bb hseat hbbex]
  ring

/-- C3 counterexample: with a single `playing` seat (chips 100, blinds 1/2),
`start_new_hand` succeeds, makes the same seat both blinds, and the second
chip update overwrites the first (it reads the stale in-memory chip count),
so chips + pot = 98 + 3 = 101 ≠ 100: conservation fails for this player
list, refuting the claim's "for every player list". -/
theorem c3_counterexample_single_seat_breaks_conservation :
    start_new_hand [⟨1, 11, 1, 100, "playing"⟩] ⟨100, 1, 2, 8⟩ [] 0 =
      some ([(1, ["AS", "KS"])],
        [⟨1, 11, 1, 98, "playing"⟩],
        ⟨1, 3, 2, [], 11⟩) ∧
    (([(⟨1, 11, 1, 98, "playing"⟩ : Player)].map (·.chip_count)).sum + 3 ≠
      ([(⟨1, 11, 1, 100, "playing"⟩ : Player)].map (·.chip_count)).sum) := by
  constructor
  · decide
  · decide

/-- C3 (amended): for every player list with pairwise-distinct seat numbers
and row ids, at least two eligible seats and at most 8 players, and every
settings and random draws, `start_new_hand` succeeds; the pot is
`small_blind + big_blind`, the current bet is `big_blind`, the new seat rows
are exactly the original ones with `small_blind` removed from the
small-blind seat and `big_blind` from the (distinct) big-blind seat, and
total chips + pot are conserved. -/
theorem c3_amended_chip_conservation
    (players : List Player) (settings : GameSettings) (rand : List Nat) (k : Nat)
    (hseat : (players.map (·.seat_number)).Nodup)
    (hid : (players.map (·.id)).Nodup)
    (h2 : 2 ≤ countEligible players)
    (h8 : players.length ≤ 8) :
    ∃ asgn gs dealer sb_seat bb_seat utg_seat,
      start_new_hand players settings rand k =
        some (asgn, postBlinds players sb_seat bb_seat settings.small_blind
          settings.big_blind, gs) ∧
      dealerChoice players k = some dealer ∧
      get_player_positions players dealer = some (sb_seat, bb_seat, utg_seat) ∧
      sb_seat ≠ bb_seat ∧
      gs.pot_size = settings.small_blind + settings.big_blind ∧
      gs.current_bet = settings.big_blind ∧
      ((postBlinds players sb_seat bb_seat settings.small_blind
          settings.big_blind).map (·.chip_count)).sum + gs.pot_size =
        (players.map (·.chip_count)).sum := by
  obtain ⟨asgn, dealer, sb, bb, utg, gs, hdc, hgpp, hsbbb, hsbex, hbbex, heq,
    hgsd, hgsp, hgsc⟩ := start_new_hand_spec players settings rand k hseat hid h2 h8
  refine ⟨asgn, gs, dealer, sb, bb, utg, heq, hdc, hgpp, hsbbb, hgsp, hgsc, ?_⟩
  rw [hgsp, postBlinds_sum players sb bb settings.small_blind settings.big_blind
    hseat hsbex hbbex hsbbb]
  ring

/-- Witness for the amended C3 at a concrete two-player table. -/
theorem c3_amended_chip_conservation_witness :
    (([(⟨1, 11, 1, 100, "playing"⟩ : Player), ⟨2, 12, 2, 200, "playing"⟩].map
        (·.seat_number)).Nodup ∧
      ([(⟨1, 11, 1, 100, "playing"⟩ : Player), ⟨2, 12, 2, 200, "playing"⟩].map
        (·.id)).Nodup ∧
      2 ≤ countEligible [⟨1, 11, 1, 100, "playing"⟩, ⟨2, 12, 2, 200, "playing"⟩] ∧
      [(⟨1, 11, 1, 100, "playing"⟩ : Player), ⟨2, 12, 2, 200, "playing"⟩].length ≤ 8) ∧
    (∃ asgn gs dealer sb_seat bb_seat utg_seat,
      start_new_hand [⟨1, 11, 1, 100, "playing"⟩, ⟨2, 12, 2, 200, "playing"⟩]
          ⟨100, 5, 10, 8⟩ [] 0 =
        some (asgn, postBlinds
          [⟨1, 11, 1, 100, "playing"⟩, ⟨2, 12, 2, 200, "playing"⟩]
          sb_seat bb_seat 5 10, gs) ∧
      dealerChoice [⟨1, 11, 1, 100, "playing"⟩, ⟨2, 12, 2, 200, "playing"⟩] 0 =
        some dealer ∧
      get_player_positions [⟨1, 11, 1, 100, "playing"⟩, ⟨2, 12, 2, 200, "playing"⟩]
        dealer = some (sb_seat, bb_seat, utg_seat) ∧
      sb_seat ≠ bb_seat ∧
      gs.pot_size = 5 + 10 ∧
      gs.current_bet = 10 ∧
      ((postBlinds [⟨1, 11, 1, 100, "playing"⟩, ⟨2, 12, 2, 200, "playing"⟩]
          sb_seat bb_seat 5 10).map (·.chip_count)).sum + gs.pot_size =
        ([(⟨1, 11, 1, 100, "playing"⟩ : Player), ⟨2, 12, 2, 200, "playing"⟩].map
          (·.chip_count)).sum) :=
  ⟨⟨by decide, by decide, by decide, by decide⟩,
    c3_amended_chip_conservation
      [⟨1, 11, 1, 100, "playing"⟩, ⟨2, 12, 2, 200, "playing"⟩]
      ⟨100, 5, 10, 8⟩ [] 0 (by decide) (by decide) (by decide) (by decide)⟩

/-- C5 counterexample: two playing seats with 1 chip each and blinds 5/5.
`start_new_hand` subtracts the full blind with no all-in capping, driving
both blind seats' chip counts to -4 < 0. -/
theorem c5_counterexample_negative_chips :
    start_new_hand [⟨1, 11, 1, 1, "playing"⟩, ⟨2, 12, 2, 1, "playing"⟩]
        ⟨1, 5, 5, 8⟩ [] 0 =
      some ([(1, ["AS", "KS"]), (2, ["QS", "JS"])],
        [⟨1, 11, 1, -4, "playing"⟩, ⟨2, 12, 2, -4, "playing"⟩],
        ⟨1, 10, 5, [], 11⟩) ∧
    ((⟨1, 11, 1, -4, "playing"⟩ : Player).chip_count < 0) := by
  constructor
  · decide
  · decide

/-- C5 (amended): `start_new_hand` debits the full blind unconditionally, so
chip counts stay nonnegative only under a coverage assumption: if every
seat's chips are nonnegative and cover both blind amounts (seat numbers and
ids distinct, 2-8 players as before), every seat row written by
`start_new_hand` has `chip_count ≥ 0`. -/
theorem c5_amended_nonneg_chips_under_coverage
    (players : List Player) (settings : GameSettings) (rand : List Nat) (k : Nat)
    (hseat : (players.map (·.seat_number)).Nodup)
    (hid : (players.map (·.id)).Nodup)
    (h2 : 2 ≤ countEligible players)
    (h8 : players.length ≤ 8)
    (hpos : ∀ p ∈ players, 0 ≤ p.chip_count)
    (hcov : ∀ p ∈ players, settings.small_blind ≤ p.chip_count ∧
      settings.big_blind ≤ p.chip_count) :
    ∃ asgn seats2 gs,
      start_new_hand players settings rand k = some (asgn, seats2, gs) ∧
      ∀ q ∈ seats2, 0 ≤ q.chip_count := by
  obtain ⟨asgn, dealer, sb, bb, utg, gs, hdc, hgpp, hsbbb, hsbex, hbbex, heq,
    hgsd, hgsp, hgsc⟩ := start_new_hand_spec players settings rand k hseat hid h2 h8
  refine ⟨asgn, _, gs, heq, ?_⟩
  intro q hq
  unfold postBlinds at hq
  obtain ⟨p, hp, rfl⟩ := List.mem_map.1 hq
  by_cases hps : p.seat_number = sb
  · simp only [if_pos hps]
    have hc := (hcov p hp).1
    omega
  · by_cases hpb : p.seat_number = bb
    · simp only [if_neg hps, if_pos hpb]
      have hc := (hcov p hp).2
      omega
    · simp only [if_neg hps, if_neg hpb]
      exact hpos p hp

/-- Witness for the amended C5 at a concrete two-player table. -/
theorem c5_amended_nonneg_chips_under_coverage_witness :
    (([(⟨1, 11, 1, 100, "playing"⟩ : Player), ⟨2, 12, 2, 200, "playing"⟩].map
        (·.seat_number)).Nodup ∧
      ([(⟨1, 11, 1, 100, "playing"⟩ : Player), ⟨2, 12, 2, 200, "playing"⟩].map
        (·.id)).Nodup ∧
      2 ≤ countEligible [⟨1, 11, 1, 100, "playing"⟩, ⟨2, 12, 2, 200, "playing"⟩] ∧
      [(⟨1, 11, 1, 100, "playing"⟩ : Player), ⟨2, 12, 2, 200, "playing"⟩].length ≤ 8 ∧
      (∀ p ∈ [(⟨1, 11, 1, 100, "playing"⟩ : Player), ⟨2, 12, 2, 200, "playing"⟩],
        0 ≤ p.chip_count) ∧
      (∀ p ∈ [(⟨1, 11, 1, 100, "playing"⟩ : Player), ⟨2, 12, 2, 200, "playing"⟩],
        (5 : Int) ≤ p.chip_count ∧ (10 : Int) ≤ p.chip_count)) ∧
    (∃ asgn seats2 gs,
      start_new_hand [⟨1, 11, 1, 100, "playing"⟩, ⟨2, 12, 2, 200, "playing"⟩]
        ⟨100, 5, 10, 8⟩ [] 0 = some (asgn, seats2, gs) ∧
      ∀ q ∈ seats2, 0 ≤ q.chip_count) :=
  ⟨⟨by decide, by decide, by decide, by decide, by decide, by decide⟩,
    c5_amended_nonneg_chips_under_coverage
      [⟨1, 11, 1, 100, "playing"⟩, ⟨2, 12, 2, 200, "playing"⟩]
      ⟨100, 5, 10, 8⟩ [] 0 (by decide) (by decide) (by decide) (by decide)
      (by decide) (by decide)⟩

/-- C6 counterexample: identical players and settings, but two different
`random.choice` draws (index 0 vs index 1) make `start_new_hand` assign two
different dealer seats, so the first-hand button is not a deterministic
function of players and settings. -/
theorem c6_counterexample_dealer_not_deterministic :
    start_new_hand [⟨1, 11, 1, 100, "playing"⟩, ⟨2, 12, 2, 100, "playing"⟩]
        ⟨100, 5, 10, 8⟩ [] 0 =
      some ([(1, ["AS", "KS"]), (2, ["QS", "JS"])],
        [⟨1, 11, 1, 95, "playing"⟩, ⟨2, 12, 2, 90, "playing"⟩],
        ⟨1, 15, 10, [], 11⟩) ∧
    start_new_hand [⟨1, 11, 1, 100, "playing"⟩, ⟨2, 12, 2, 100, "playing"⟩]
        ⟨100, 5, 10, 8⟩ [] 1 =
      some ([(1, ["AS", "KS"]), (2, ["QS", "JS"])],
        [⟨1, 11, 1, 90, "playing"⟩, ⟨2, 12, 2, 95, "playing"⟩],
        ⟨2, 15, 10, [], 12⟩) ∧
    (⟨1, 15, 10, [], 11⟩ : GameStateUpdate).dealer_position ≠
      (⟨2, 15, 10, [], 12⟩ : GameStateUpdate).dealer_position := by
  refine ⟨?_, ?_, ?_⟩
  · decide
  · decide
  · decide

/-- C6 (amended): the first-hand dealer seat is `random.choice` over all
players' seat numbers: `start_new_hand` writes as `dealer_position` exactly
the seat number selected by the random draw, always one of the players'
seat numbers; it is a function of the draw, not a fixed disclosed policy
such as the lowest seat number. -/
theorem c6_amended_dealer_is_random_choice
    (players : List Player) (settings : GameSettings) (rand : List Nat) (k : Nat)
    (hseat : (players.map (·.seat_number)).Nodup)
    (hid : (players.map (·.id)).Nodup)
    (h2 : 2 ≤ countEligible players)
    (h8 : players.length ≤ 8) :
    ∃ asgn seats2 gs dealer,
      start_new_hand players settings rand k = some (asgn, seats2, gs) ∧
      dealerChoice players k = some dealer ∧
      gs.dealer_position = dealer ∧
      dealer ∈ players.map (·.seat_number) := by
  obtain ⟨asgn, dealer, sb, bb, utg, gs, hdc, hgpp, hsbbb, hsbex, hbbex, heq,
    hgsd, hgsp, hgsc⟩ := start_new_hand_spec players settings rand k hseat hid h2 h8
  have hlen : countEligible players ≤ players.length := List.length_filter_le _ _
  have hpos : 0 < players.length := by omega
  have hmem : (players.map (·.seat_number)).getD (k % players.length) 0 ∈
      players.map (·.seat_number) := by
    apply getD_mem
    rw [List.length_map]
    exact Nat.mod_lt _ hpos
  have hdc2 := dealerChoice_some players k (List.length_pos.1 hpos)
  rw [hdc] at hdc2
  have heq2 : dealer = (players.map (·.seat_number)).getD (k % players.length) 0 :=
    Option.some_inj.1 hdc2
  refine ⟨asgn, _, gs, dealer, heq, hdc, hgsd, ?_⟩
  rw [heq2]
  exact hmem

/-- Witness for the amended C6 at a concrete two-player table. -/
theorem c6_amended_dealer_is_random_choice_witness :
    (([(⟨1, 11, 1, 100, "playing"⟩ : Player), ⟨2, 12, 2, 200, "playing"⟩].map
        (·.seat_number)).Nodup ∧
      ([(⟨1, 11, 1, 100, "playing"⟩ : Player), ⟨2, 12, 2, 200, "playing"⟩].map
        (·.id)).Nodup ∧
      2 ≤ countEligible [⟨1, 11, 1, 100, "playing"⟩, ⟨2, 12, 2, 200, "playing"⟩] ∧
      [(⟨1, 11, 1, 100, "playing"⟩ : Player), ⟨2, 12, 2, 200, "playing"⟩].length ≤ 8) ∧
    (∃ asgn seats2 gs dealer,
      start_new_hand [⟨1, 11, 1, 100, "playing"⟩, ⟨2, 12, 2, 200, "playing"⟩]
        ⟨100, 5, 10, 8⟩ [] 1 = some (asgn, seats2, gs) ∧
      dealerChoice [⟨1, 11, 1, 100, "playing"⟩, ⟨2, 12, 2, 200, "playing"⟩] 1 =
        some dealer ∧
      gs.dealer_position = dealer ∧
      dealer ∈ [(⟨1, 11, 1, 100, "playing"⟩ : Player),
        ⟨2, 12, 2, 200, "playing"⟩].map (·.seat_number)) :=
  ⟨⟨by decide, by decide, by decide, by decide⟩,
    c6_amended_dealer_is_random_choice
      [⟨1, 11, 1, 100, "playing"⟩, ⟨2, 12, 2, 200, "playing"⟩]
      ⟨100, 5, 10, 8⟩ [] 1 (by decide) (by decide) (by decide) (by decide)⟩

/-- C7: for every player list of at most 8 seats and every shuffle draw, the
dealing loop of `start_new_hand` succeeds on the shuffled 52-card deck
(never exhausted), gives exactly 2 hole cards to each seat in the list (in
particular each playing seat), all dealt cards are pairwise distinct, and
the dealt cards are exactly the `2 * n` cards removed from the top (the
end, under `pop()`) of the deck, the front part remaining. -/
theorem c7_dealing_two_distinct_cards_each
    (players : List Player) (rand : List Nat)
    (h8 : players.length ≤ 8) :
    ∃ asgn rest removed,
      dealToPlayers players (shuffle_deck rand create_deck) = some (asgn, rest) ∧
      asgn.map Prod.fst = players.map (·.id) ∧
      (∀ a ∈ asgn, (Prod.snd a).length = 2) ∧
      ((asgn.map Prod.snd).flatten).Nodup ∧
      rest ++ removed = shuffle_deck rand create_deck ∧
      removed.length = 2 * players.length ∧
      List.Perm ((asgn.map Prod.snd).flatten) removed := by
  have hperm := shuffle_deck_perm rand create_deck
  have hlen : (shuffle_deck rand create_deck).length = 52 := by
    rw [hperm.length_eq]
    rfl
  have hnd : (shuffle_deck rand create_deck).Nodup :=
    hperm.nodup_iff.2 (by decide)
  obtain ⟨asgn, rest, removed, hdeal, hfst, hcards, hrlen, hsplit, hfperm⟩ :=
    dealToPlayers_ok players (shuffle_deck rand create_deck)
      (by rw [hlen]; omega)
  have hremnd : removed.Nodup := by
    rw [← hsplit] at hnd
    exact hnd.of_append_right
  exact ⟨asgn, rest, removed, hdeal, hfst, hcards,
    hfperm.nodup_iff.2 hremnd, hsplit, hrlen, hfperm⟩

/-- Witness for C7 at a concrete two-player table and the identity shuffle. -/
theorem c7_dealing_two_distinct_cards_each_witness :
    ([(⟨1, 11, 1, 100, "playing"⟩ : Player), ⟨2, 12, 2, 200, "playing"⟩].length ≤ 8) ∧
    (∃ asgn rest removed,
      dealToPlayers [⟨1, 11, 1, 100, "playing"⟩, ⟨2, 12, 2, 200, "playing"⟩]
        (shuffle_deck [] create_deck) = some (asgn, rest) ∧
      asgn.map Prod.fst = [(⟨1, 11, 1, 100, "playing"⟩ : Player),
        ⟨2, 12, 2, 200, "playing"⟩].map (·.id) ∧
      (∀ a ∈ asgn, (Prod.snd a).length = 2) ∧
      ((asgn.map Prod.snd).flatten).Nodup ∧
      rest ++ removed = shuffle_deck [] create_deck ∧
      removed.length = 2 * [(⟨1, 11, 1, 100, "playing"⟩ : Player),
        ⟨2, 12, 2, 200, "playing"⟩].length ∧
      List.Perm ((asgn.map Prod.snd).flatten) removed) :=
  ⟨by decide,
    c7_dealing_two_distinct_cards_each
      [⟨1, 11, 1, 100, "playing"⟩, ⟨2, 12, 2, 200, "playing"⟩] [] (by decide)⟩

/-- C8: `create_deck` has exactly 52 pairwise-distinct cards, its members
are exactly the rank-suit concatenations, and the (spec-modelled) shuffle
returns a permutation of its input for every random draw. -/
theorem c8_deck_creation_and_shuffle :
    create_deck.length = 52 ∧ create_deck.Nodup ∧
    (∀ c, c ∈ create_deck ↔ ∃ r ∈ RANKS, ∃ s ∈ SUITS, c = r ++ s) ∧
    (∀ rand deck, List.Perm (shuffle_deck rand deck) deck) := by
  refine ⟨rfl, by decide, ?_, shuffle_deck_perm⟩
  intro c
  unfold create_deck
  rw [List.mem_flatMap]
  constructor
  · rintro ⟨s, hs, hc⟩
    obtain ⟨r, hr, rfl⟩ := List.mem_map.1 hc
    exact ⟨r, hr, s, hs, rfl⟩
  · rintro ⟨r, hr, s, hs, rfl⟩
    refine ⟨s, hs, ?_⟩
    rw [List.mem_map]
    exact ⟨r, hr, rfl⟩

lemma find?_range'_lowest (k n : Nat) (p : Nat → Bool) (a : Nat)
    (h : (List.range' k n).find? p = some a) :
    p a = true ∧ k ≤ a ∧ a < k + n ∧
      ∀ m, k ≤ m → m < a → ¬ p m = true := by
  induction n generalizing k with
  | zero => simp [List.range'] at h
  | succ n ih =>
    rw [List.range'] at h
    by_cases hk : p k = true
    · rw [List.find?_cons_of_pos _ hk] at h
      have ha : a = k := (Option.some_inj.1 h).symm
      subst ha
      refine ⟨hk, le_refl _, by omega, ?_⟩
      intro m hm1 hm2
      omega
    · rw [List.find?_cons_of_neg _ hk] at h
      obtain ⟨hpa, hka, hlt, hmin⟩ := ih (k + 1) h
      refine ⟨hpa, by omega, by omega, ?_⟩
      intro m hm1 hm2
      rcases Nat.eq_or_lt_of_le hm1 with rfl | hgt
      · exact hk
      · exact hmin m hgt hm2

/-- C9: whenever `join_game` succeeds with seat `n`, the game was `waiting`,
the table was below `max_players`, the player was not already seated, `n`
lies in `1..max_players`, `n` was not an occupied seat number, every lower
seat number in range was occupied (so `n` is the lowest free seat), and
exactly one new row for this player at seat `n` is inserted.
Contrapositively, a full table, a repeat join, or a non-waiting game is
rejected with no insertion. -/
theorem c9_join_game_assigns_lowest_free_seat
    (game_status : String) (max_players : Nat) (seats : List SeatRow)
    (player_id : Nat) (n : Nat) (newSeats : List SeatRow)
    (h : join_game game_status max_players seats player_id =
      Except.ok (n, newSeats)) :
    game_status = "waiting" ∧
    seats.length < max_players ∧
    (∀ s ∈ seats, s.user_id ≠ player_id) ∧
    1 ≤ n ∧ n ≤ max_players ∧
    Int.ofNat n ∉ seats.map (·.seat_number) ∧
    (∀ m : Nat, 1 ≤ m → m < n → Int.ofNat m ∈ seats.map (·.seat_number)) ∧
    newSeats = seats ++ [⟨player_id, Int.ofNat n⟩] := by
  unfold join_game at h
  split_ifs at h with h1 h2 h3
  split at h
  · exact absurd h (by simp)
  · rename_i n2 hf
    simp only [Except.ok.injEq, Prod.mk.injEq] at h
    obtain ⟨hn2, hnew⟩ := h
    subst hn2
    obtain ⟨hpa, h1n, hltn, hmin⟩ := find?_range'_lowest 1 max_players _ n2 hf
    refine ⟨by push_neg at h1; exact h1, by omega, ?_, h1n, by omega,
      of_decide_eq_true hpa, ?_, hnew.symm⟩
    · intro s hs hc
      apply h3
      rw [List.any_eq_true]
      exact ⟨s, hs, by simp [hc]⟩
    · intro m hm1 hm2
      have hnp := hmin m hm1 hm2
      by_contra hc
      exact hnp (decide_eq_true hc)

/-- Witness for C9: joining a waiting 4-seat table whose seat 1 is taken
assigns seat 2. -/
theorem c9_join_game_assigns_lowest_free_seat_witness :
    (join_game "waiting" 4 [⟨5, 1⟩] 7 = Except.ok (2, [⟨5, 1⟩, ⟨7, 2⟩])) ∧
    ("waiting" = "waiting" ∧
      [(⟨5, 1⟩ : SeatRow)].length < 4 ∧
      (∀ s ∈ [(⟨5, 1⟩ : SeatRow)], s.user_id ≠ 7) ∧
      1 ≤ 2 ∧ 2 ≤ 4 ∧
      Int.ofNat 2 ∉ [(⟨5, 1⟩ : SeatRow)].map (·.seat_number) ∧
      (∀ m : Nat, 1 ≤ m → m < 2 →
        Int.ofNat m ∈ [(⟨5, 1⟩ : SeatRow)].map (·.seat_number)) ∧
      [(⟨5, 1⟩ : SeatRow), ⟨7, 2⟩] = [(⟨5, 1⟩ : SeatRow)] ++ [⟨7, Int.ofNat 2⟩]) :=
  ⟨by rfl,
    c9_join_game_assigns_lowest_free_seat "waiting" 4 [⟨5, 1⟩] 7 2
      [⟨5, 1⟩, ⟨7, 2⟩] (by rfl)⟩
